import Mathlib

/-!
Shallow embedding of the chunking / retrieval-quality pipeline of the
ai-course-assistant repository (backend/app/rag).  Python strings are
modelled as Lean `String`, Python `float` similarity scores as `ℚ`,
Python `int` as `ℤ` or `ℕ`, Python exceptions as `Except`.
-/

namespace Rag

/-- Python whitespace predicate restricted to the ASCII range
(tab, newline, vertical tab, form feed, carriage return, space), the
characters relevant to this code base.  Used to model `\s` in regexes
and `str.strip()`. -/
def pyIsSpace (c : Char) : Bool :=
  c = ' ' || c = '\t' || c = '\n' || c = '\r' || c = '\x0b' || c = '\x0c'

/-- `str.lstrip()` on a character list. -/
def pyLStrip (l : List Char) : List Char := l.dropWhile pyIsSpace

/-- `str.rstrip()` on a character list: drop the maximal trailing
whitespace run. -/
def pyRStrip (l : List Char) : List Char :=
  l.foldr (fun c acc => if acc.isEmpty && pyIsSpace c then [] else c :: acc) []

/-- `str.strip()` on a character list. -/
def pyStripChars (l : List Char) : List Char := pyRStrip (pyLStrip l)

/-- `str.strip()` on a string. -/
def pyStrip (s : String) : String := ⟨pyStripChars s.data⟩

/-- One pass of `re.sub(r"\s+", " ", ...)` on characters: every maximal
whitespace run is replaced by a single space.  The flag records whether
we are currently inside a whitespace run. -/
def collapseWsAux : Bool → List Char → List Char
  | _, [] => []
  | inRun, c :: cs =>
    if pyIsSpace c then
      if inRun then collapseWsAux true cs else ' ' :: collapseWsAux true cs
    else c :: collapseWsAux false cs

def collapseWs (l : List Char) : List Char := collapseWsAux false l

/-- `text.replace('\x00', '')`. -/
def removeNul (l : List Char) : List Char := l.filter (fun c => c ≠ '\x00')

/-- `normalize_text` from `chunking.py`: strip NUL characters, collapse
whitespace runs to single spaces (`re.sub(r"\s+", " ", text)`), then
strip leading/trailing whitespace. -/
def normalize_text (s : String) : String :=
  ⟨pyStripChars (collapseWs (removeNul s.data))⟩

/- Facts about `normalize_text` needed for the chunk invariants. -/

/-- Every whitespace character in the list is a plain space. -/
def wsOnlySpace (l : List Char) : Prop := ∀ c ∈ l, pyIsSpace c → c = ' '

/-- No two adjacent whitespace characters. -/
def noAdjWs : List Char → Prop
  | [] => True
  | [_] => True
  | a :: b :: t => ¬(pyIsSpace a ∧ pyIsSpace b) ∧ noAdjWs (b :: t)

/-! Data model (`schemas.py`). -/
/-- `SourceType` enum from `schemas.py`. -/
inductive SourceType where
  | course_notes
  | lecture_slides
  | student_notes
  | syllabus
  | practice_problems
  | exam
  | solution
  | assignment
deriving DecidableEq, Repr

/-- The `.value` string of a `SourceType` member. -/
def SourceType.value : SourceType → String
  | .course_notes => "course_notes"
  | .lecture_slides => "lecture_slides"
  | .student_notes => "student_notes"
  | .syllabus => "syllabus"
  | .practice_problems => "practice_problems"
  | .exam => "exam"
  | .solution => "solution"
  | .assignment => "assignment"

/-- `ChunkLocator` from `schemas.py`.  The Python field `section` is
called `sectionName` here because `section` is reserved in Lean. -/
structure ChunkLocator where
  page : Option ℤ := none
  slide : Option ℤ := none
  sectionName : Option String := none
  paragraph : Option ℤ := none
  line_range : Option (ℤ × ℤ) := none
deriving DecidableEq, Repr

/-- Python truthiness of an optional integer (`if self.page:`):
`None` and `0` are falsy. -/
def optIntTruthy : Option ℤ → Bool
  | none => false
  | some n => n ≠ 0

/-- Python truthiness of an optional string: `None` and `""` are falsy. -/
def optStrTruthy : Option String → Bool
  | none => false
  | some s => s ≠ ""

/-- `ChunkLocator.to_citation`: section, page, slide, paragraph, line
range parts joined by ", "; "unknown location" when no part is set.
Python truthiness means value 0 / empty string fields are skipped. -/
def ChunkLocator.to_citation (loc : ChunkLocator) : String :=
  let parts : List String :=
    (if optStrTruthy loc.sectionName then ["Section " ++ loc.sectionName.getD ""] else []) ++
    (if optIntTruthy loc.page then ["page " ++ toString (loc.page.getD 0)] else []) ++
    (if optIntTruthy loc.slide then ["slide " ++ toString (loc.slide.getD 0)] else []) ++
    (if optIntTruthy loc.paragraph then ["paragraph " ++ toString (loc.paragraph.getD 0)] else []) ++
    (match loc.line_range with
     | some (a, b) => ["lines " ++ toString a ++ "-" ++ toString b]
     | none => [])
  if parts.isEmpty then "unknown location" else String.intercalate ", " parts

/-- Split a character list at every occurrence of a separator
character (like Python `str.split` with a one-character separator). -/
def splitOnChar (sep : Char) : List Char → List (List Char)
  | [] => [[]]
  | c :: t =>
    if c = sep then [] :: splitOnChar sep t
    else
      match splitOnChar sep t with
      | h :: r => (c :: h) :: r
      | [] => [[c]]

/-- `Path(p).parts`, restricted to POSIX relative/absolute paths: the
nonempty components between slashes. -/
def pathComponents (p : String) : List (List Char) :=
  (splitOnChar '/' p.data).filter (fun s => s ≠ [])

/-- `Path(p).name`: the final path component (empty for a root/empty
path; trailing slashes ignored, as in `pathlib`). -/
def pathName (p : String) : String :=
  ⟨(pathComponents p).getLastD []⟩

/-- `Chunk` from `schemas.py` (the `id` default is a fresh UUID in
Python; here it is an explicit field). -/
structure Chunk where
  file_path : String
  source_type : SourceType
  text : String
  locator : ChunkLocator
  chunk_index : ℕ
  id : String := ""
  char_start : Option ℤ := none
  char_end : Option ℤ := none
  heading : Option String := none
deriving DecidableEq, Repr

/-- `Chunk.to_citation`: file name plus locator citation. -/
def Chunk.to_citation (c : Chunk) : String :=
  pathName c.file_path ++ ", " ++ c.locator.to_citation

/-- `RetrievalResult` from `retrieve.py`. -/
structure RetrievalResult where
  chunk : Chunk
  similarity_score : ℚ
deriving DecidableEq, Repr

/-! Quality gate (`generate.py`, `_assess_retrieval_quality`). -/
/-- The quality-metrics dictionary, modelled by the entries read
downstream (the threshold echo entries are omitted). -/
structure QualityMetrics where
  top_similarity : ℚ
  high_quality_chunks : ℕ
  total_chunks : ℕ
  is_sufficient : Bool
deriving DecidableEq, Repr

/-- `_assess_retrieval_quality` from `generate.py`: empty results are
insufficient; otherwise sufficiency requires the top similarity to meet
`min_confidence` and the count of results meeting `min_confidence` to
reach `min_high_quality_chunks`. -/
def assess_retrieval_quality (results : List RetrievalResult)
    (min_confidence : ℚ) (min_high_quality_chunks : ℤ) : Bool × QualityMetrics :=
  match results with
  | [] => (false, ⟨0, 0, 0, false⟩)
  | r0 :: _ =>
    let top_similarity := r0.similarity_score
    let high_quality_chunks :=
      results.countP (fun r => min_confidence ≤ r.similarity_score)
    let is_sufficient : Bool :=
      decide (min_confidence ≤ top_similarity ∧
        min_high_quality_chunks ≤ (high_quality_chunks : ℤ))
    (is_sufficient,
     ⟨top_similarity, high_quality_chunks, results.length, is_sufficient⟩)

/-- A placeholder chunk used to build concrete retrieval results. -/
def exampleChunk : Chunk :=
  { file_path := "data/raw/CS101/notes/a.pdf"
    source_type := .student_notes
    text := "example chunk text"
    locator := { page := some 3 }
    chunk_index := 0 }

/-- Turn a list of similarity scores into retrieval results. -/
def exampleResults (scores : List ℚ) : List RetrievalResult :=
  scores.map (fun q => ⟨exampleChunk, q⟩)

/-! Validation gate (`validation.py`, `schemas.py`). -/
/-- The keys of the `ALLOWED_FORMATS` dictionary from `schemas.py`
(its values are only human-readable descriptions used in error
messages). -/
def ALLOWED_FORMATS : List String := [".pdf", ".pptx", ".docx", ".md", ".txt"]

/-- `FORMAT_TO_SOURCE_TYPE` from `schemas.py`, as a lookup defaulting
to the empty set (`FORMAT_TO_SOURCE_TYPE.get(ext, set())`). -/
def FORMAT_TO_SOURCE_TYPE (ext : String) : List SourceType :=
  if ext = ".pdf" then
    [.course_notes, .lecture_slides, .student_notes, .syllabus,
     .practice_problems, .exam, .solution, .assignment]
  else if ext = ".pptx" then [.lecture_slides]
  else if ext = ".docx" then
    [.course_notes, .student_notes, .syllabus, .practice_problems,
     .solution, .assignment]
  else if ext = ".md" then [.course_notes, .student_notes]
  else if ext = ".txt" then [.course_notes, .student_notes]
  else []

/-- `Path(p).suffix`: the extension of the final component including
the dot, empty for dot-less, hidden (leading dot only) and
trailing-dot names, as in `pathlib`. -/
def pySuffix (p : String) : String :=
  let name := (pathComponents p).getLastD []
  match name.reverse.findIdx? (fun c => c = '.') with
  | none => ""
  | some j =>
    let n := name.length
    let i := n - 1 - j
    if 0 < i ∧ i < n - 1 then ⟨name.drop i⟩ else ""

/-- `get_file_extension` from `validation.py`:
`Path(file_path).suffix.lower()` (ASCII lowering). -/
def get_file_extension (p : String) : String :=
  ⟨(pySuffix p).data.map Char.toLower⟩

/-- The causes of `IngestionValidationError` from `validation.py`,
one constructor per `raise` site. -/
inductive IngestionValidationError where
  | formatNotAllowed (ext : String)
  | cannotInferSourceType (path : String)
  | formatSourceTypeMismatch (ext : String) (st : SourceType)
deriving DecidableEq, Repr

/-- `validate_format`: the extension must be an allowed format. -/
def validate_format (p : String) : Except IngestionValidationError Unit :=
  let ext := get_file_extension p
  if ALLOWED_FORMATS.contains ext then .ok ()
  else .error (.formatNotAllowed ext)

/-- `infer_source_type_from_path`: map the lowercased name of the
file's parent directory (relative to `course_root` when the latter is
a prefix of the path, as `Path.relative_to` does) through the fixed
directory table; unmatched directories are an error. -/
def infer_source_type_from_path (p : String) (course_root : Option String) :
    Except IngestionValidationError SourceType :=
  let fileParts := pathComponents p
  let relParts :=
    match course_root with
    | some r =>
      let rParts := pathComponents r
      if rParts.isPrefixOf fileParts then fileParts.drop rParts.length
      else fileParts
    | none => fileParts
  let parent_dir : String := ⟨((relParts.dropLast).getLastD []).map Char.toLower⟩
  if parent_dir = "course_notes" ∨ parent_dir = "course-notes" then
    .ok .course_notes
  else if parent_dir = "syllabus" ∨ parent_dir = "syllabi" then
    .ok .syllabus
  else if parent_dir = "lectures" ∨ parent_dir = "lecture" then
    .ok .lecture_slides
  else if parent_dir = "notes" ∨ parent_dir = "note" then
    .ok .student_notes
  else if parent_dir = "tutorials" ∨ parent_dir = "tutorial" ∨
      parent_dir = "practice" ∨ parent_dir = "practices" then
    .ok .practice_problems
  else if parent_dir = "exams" ∨ parent_dir = "exam" ∨
      parent_dir = "tests" ∨ parent_dir = "test" then
    .ok .exam
  else if parent_dir = "solutions" ∨ parent_dir = "solution" ∨
      parent_dir = "sol" ∨ parent_dir = "sols" then
    .ok .solution
  else if parent_dir = "assignments" ∨ parent_dir = "assignment" ∨
      parent_dir = "hw" ∨ parent_dir = "homework" then
    .ok .assignment
  else .error (.cannotInferSourceType p)

/-- `validate_format_source_type_mapping`: check the format is allowed
at all, then that the source type is in the format's allowed set. -/
def validate_format_source_type_mapping (p : String) (st : SourceType) :
    Except IngestionValidationError Unit := do
  _ ← validate_format p
  let ext := get_file_extension p
  if (FORMAT_TO_SOURCE_TYPE ext).contains st then pure ()
  else .error (.formatSourceTypeMismatch ext st)

/-- `validate_file_for_ingestion`: format check, source-type inference
(when no explicit type is given), then the format-to-source-type
matrix check; returns the validated source type. -/
def validate_file_for_ingestion (p : String) (course_root : Option String)
    (source_type : Option SourceType) :
    Except IngestionValidationError SourceType := do
  _ ← validate_format p
  let st ← match source_type with
    | some st => pure st
    | none => infer_source_type_from_path p course_root
  _ ← validate_format_source_type_mapping p st
  pure st

/-! Chunk deduplication (`ingest.py`, `_deduplicate_chunks`). -/
/-- `text.replace('\n', ' ')`. -/
def replaceNlSpace (l : List Char) : List Char :=
  l.map (fun c => if c = '\n' then ' ' else c)

/-- `text.replace('  ', ' ')`: one left-to-right pass replacing
non-overlapping double spaces by single spaces (not a fixpoint pass,
exactly as Python `str.replace`). -/
def replaceDoubleSpace : List Char → List Char
  | ' ' :: ' ' :: t => ' ' :: replaceDoubleSpace t
  | c :: t => c :: replaceDoubleSpace t
  | [] => []

/-- The comparison key of `_deduplicate_chunks`:
`chunk.text.strip().replace('\n', ' ').replace('  ', ' ')`. -/
def dedupNormalize (s : String) : String :=
  ⟨replaceDoubleSpace (replaceNlSpace (pyStripChars s.data))⟩

/-- The scanning loop of `_deduplicate_chunks`: keep a chunk only if
its normalized text has not been seen before. -/
def dedupScan (seen : List String) : List Chunk → List Chunk
  | [] => []
  | c :: cs =>
    let normalized := dedupNormalize c.text
    if normalized ∈ seen then dedupScan seen cs
    else c :: dedupScan (normalized :: seen) cs

/-- The re-indexing loop of `_deduplicate_chunks`: assign
`chunk_index` 0, 1, ... in order. -/
def reindexChunks (l : List Chunk) : List Chunk :=
  l.enum.map (fun p => { p.2 with chunk_index := p.1 })

/-- `_deduplicate_chunks` from `ingest.py`. -/
def deduplicate_chunks (chunks : List Chunk) : List Chunk :=
  reindexChunks (dedupScan [] chunks)

/-- Specification-side description of first-occurrence deduplication:
keep the head, drop every later element with the same key, recurse. -/
def keepFirstByKey (f : Chunk → String) : List Chunk → List Chunk
  | [] => []
  | x :: xs =>
    x :: keepFirstByKey f (xs.filter (fun y => f y ≠ f x))
termination_by l => l.length
decreasing_by
  simp only [List.length_cons]
  exact Nat.lt_succ_of_le (List.length_filter_le _ _)

/-- A chunk with its index erased (used to compare survivors while
ignoring the re-assigned indices). -/
def eraseIndex (c : Chunk) : Chunk := { c with chunk_index := 0 }

/-- Two chunks whose texts normalize identically. -/
def dupChunkA : Chunk :=
  { file_path := "data/raw/CS101/notes/a.pdf", source_type := .student_notes,
    text := "hello world", locator := {}, chunk_index := 0 }

def dupChunkB : Chunk :=
  { file_path := "data/raw/CS101/notes/a.pdf", source_type := .student_notes,
    text := "hello  world", locator := {}, chunk_index := 1 }

/-! Chunking engine (`chunking.py`). -/
/-- The interface of `RecursiveCharacterTextSplitter.split_text`
(third-party LangChain code, outside this repository): chunk size,
chunk overlap, text to split, resulting pieces.  The chunk-invariant
theorems hold for every splitter behavior. -/
def Splitter : Type := ℕ → ℕ → String → List String

/-- Model of `RecursiveCharacterTextSplitter.split_text` valid for
texts that fit within the chunk size: the merge step reassembles the
whole text into a single stripped piece, and a whitespace-only text
produces no piece. -/
def splitWhole : Splitter := fun _ _ s =>
  if pyStrip s = "" then [] else [pyStrip s]

/-- A LangChain `Document`: page content plus the metadata keys this
code base reads (`page`, `slide`, `section`, `heading`). -/
structure LCDocument where
  page_content : String
  mpage : Option ℤ := none
  mslide : Option ℤ := none
  msection : Option String := none
  mheading : Option String := none

/-- `split_documents`: split each document's content, copying its
metadata onto every piece. -/
def langchain_split_documents (split : Splitter) (size overlap : ℕ)
    (docs : List LCDocument) : List LCDocument :=
  docs.flatMap (fun d =>
    (split size overlap d.page_content).map (fun s => { d with page_content := s }))

/-- The loop of `_langchain_docs_to_chunks`: normalize, drop fragments
that are empty or shorter than 10 characters, number the kept chunks
sequentially. -/
def langchain_docs_to_chunks_aux (file_path : String) (st : SourceType) :
    ℕ → List LCDocument → List Chunk
  | _, [] => []
  | idx, d :: ds =>
    let normalized := normalize_text d.page_content
    if normalized = "" ∨ normalized.length < 10 then
      langchain_docs_to_chunks_aux file_path st idx ds
    else
      { file_path := file_path, source_type := st, text := normalized,
        locator := { page := d.mpage, slide := d.mslide, sectionName := d.msection },
        chunk_index := idx, heading := d.mheading } ::
        langchain_docs_to_chunks_aux file_path st (idx + 1) ds

/-- `_langchain_docs_to_chunks` from `chunking.py`. -/
def langchain_docs_to_chunks (docs : List LCDocument) (file_path : String)
    (st : SourceType) (chunk_index_start : ℕ) : List Chunk :=
  langchain_docs_to_chunks_aux file_path st chunk_index_start docs

/-- `chunk_by_paragraphs`: split with a 1000/200 splitter and convert,
carrying `page`/`section` metadata. -/
def chunk_by_paragraphs (split : Splitter) (text file_path : String)
    (st : SourceType) (page : Option ℤ) (sectionArg : Option String) : List Chunk :=
  langchain_docs_to_chunks
    (langchain_split_documents split 1000 200
      [{ page_content := text, mpage := page, msection := sectionArg }])
    file_path st 0

/-- The loop of `chunk_by_slides`: one chunk per slide with 1-indexed
slide locator; dropped slides do not advance `chunk_index` (which is
`len(chunks)` at insertion time). -/
def chunk_by_slides_aux (file_path : String) (st : SourceType) (page : Option ℤ) :
    ℕ → ℕ → List String → List Chunk
  | _, _, [] => []
  | idx, cnt, s :: rest =>
    let normalized := normalize_text s
    if normalized = "" ∨ normalized.length < 10 then
      chunk_by_slides_aux file_path st page (idx + 1) cnt rest
    else
      { file_path := file_path, source_type := st, text := normalized,
        locator := { page := page, slide := some ((idx : ℤ) + 1) },
        chunk_index := cnt } ::
        chunk_by_slides_aux file_path st page (idx + 1) (cnt + 1) rest

/-- `chunk_by_slides` from `chunking.py`. -/
def chunk_by_slides (slides : List String) (file_path : String)
    (st : SourceType) (page : Option ℤ) : List Chunk :=
  chunk_by_slides_aux file_path st page 0 0 slides

/-- The per-piece loop shared by `chunk_by_sections`: each piece is
tagged with its section name as both locator section and heading. -/
def section_pieces_to_chunks (file_path : String) (st : SourceType)
    (page : Option ℤ) : ℕ → List (String × String) → List Chunk
  | _, [] => []
  | idx, (name, s) :: rest =>
    let normalized := normalize_text s
    if normalized = "" ∨ normalized.length < 10 then
      section_pieces_to_chunks file_path st page idx rest
    else
      { file_path := file_path, source_type := st, text := normalized,
        locator := { page := page, sectionName := some name },
        chunk_index := idx, heading := some name } ::
        section_pieces_to_chunks file_path st page (idx + 1) rest

/-- `chunk_by_sections` from `chunking.py` (the section dictionary is
modelled as an insertion-ordered association list, as Python dicts
iterate). -/
def chunk_by_sections (split : Splitter) (sections : List (String × String))
    (file_path : String) (st : SourceType) (page : Option ℤ) : List Chunk :=
  section_pieces_to_chunks file_path st page 0
    (sections.flatMap (fun p => (split 1000 200 p.2).map (fun s => (p.1, s))))

/-- Case-insensitively strip a (lowercase) keyword prefix, returning
the remainder. -/
def matchKeywordCI : List Char → List Char → Option (List Char)
  | [], s => some s
  | _ :: _, [] => none
  | k :: kr, c :: cr => if c.toLower = k then matchKeywordCI kr cr else none

/-- Try to match the problem-marker regex
`(?:Problem|Question|Exercise|Part)\s*(\d+)[:.]?\s*\n` (IGNORECASE)
for one alternative keyword at the current position, returning the
captured digits and the input after the match.  `\s*\n` matches up to
the last newline of the following whitespace run. -/
def tryOneKeyword (kw : String) (s : List Char) : Option (String × List Char) :=
  match matchKeywordCI kw.data s with
  | none => none
  | some r1 =>
    let r2 := r1.dropWhile pyIsSpace
    let digits := r2.takeWhile Char.isDigit
    if digits.isEmpty then none
    else
      let r3 := r2.drop digits.length
      let r4 := match r3 with
        | c :: t => if c = ':' ∨ c = '.' then t else r3
        | [] => r3
      let run := r4.takeWhile pyIsSpace
      let afterLastNl := run.reverse.takeWhile (fun c => c ≠ '\n')
      if afterLastNl.length = run.length then none
      else some (⟨digits⟩, r4.drop (run.length - afterLastNl.length))

/-- The regex alternation, tried left to right at one position. -/
def tryProblemHeader (s : List Char) : Option (String × List Char) :=
  (tryOneKeyword "problem" s).orElse fun _ =>
    (tryOneKeyword "question" s).orElse fun _ =>
      (tryOneKeyword "exercise" s).orElse fun _ =>
        tryOneKeyword "part" s

/-- `re.split` with the problem-marker pattern: alternating unmatched
text and captured digit groups, scanning left to right.  Fuelled by
the input length (each step consumes at least one character, so the
fuel never runs out on the initial call). -/
def problemSplitAux : List Char → List Char → ℕ → List String
  | acc, s, 0 => [⟨acc.reverse ++ s⟩]
  | acc, [], _ + 1 => [⟨acc.reverse⟩]
  | acc, c :: t, fuel + 1 =>
    match tryProblemHeader (c :: t) with
    | some (digits, rest) =>
      (⟨acc.reverse⟩ : String) :: digits :: problemSplitAux [] rest fuel
    | none => problemSplitAux (c :: acc) t fuel

def problemSplitParts (text : String) : List String :=
  problemSplitAux [] text.data text.data.length

/-- Decimal value of a digit string (`int(part)`). -/
def digitsToNat (l : List Char) : ℕ :=
  l.foldl (fun a c => 10 * a + (c.toNat - 48)) 0

/-- One identified problem: its number and gathered text. -/
structure ProblemItem where
  number : ℕ
  text : String
deriving DecidableEq, Repr

/-- The part-scanning loop of `chunk_problem_set`: parts at odd
indices that are all digits start a new problem; other parts are
stripped and gathered under the current problem; a problem is emitted
when the next one starts (or at the end) provided a number is current
and the gathered list is nonempty (Python list truthiness). -/
def collectProblems : ℕ → Option ℕ → List String → List String → List ProblemItem
  | _, curNum, curText, [] =>
    match curNum with
    | some n => if curText.isEmpty then [] else [⟨n, String.intercalate "\n" curText⟩]
    | none => []
  | i, curNum, curText, p :: rest =>
    if i % 2 = 1 ∧ p ≠ "" ∧ p.data.all Char.isDigit then
      (match curNum with
       | some n => if curText.isEmpty then [] else [⟨n, String.intercalate "\n" curText⟩]
       | none => []) ++
        collectProblems (i + 1) (some (digitsToNat p.data)) [] rest
    else
      collectProblems (i + 1) curNum (curText ++ [pyStrip p]) rest

/-- The per-piece loop of `chunk_problem_set` over identified
problems: 800/100 splitting, `"Problem <n>"` as section and heading. -/
def problem_pieces_to_chunks (file_path : String) (st : SourceType)
    (page : Option ℤ) : ℕ → List (ℕ × String) → List Chunk
  | _, [] => []
  | idx, (n, s) :: rest =>
    let normalized := normalize_text s
    if normalized = "" ∨ normalized.length < 10 then
      problem_pieces_to_chunks file_path st page idx rest
    else
      { file_path := file_path, source_type := st, text := normalized,
        locator := { page := page, sectionName := some ("Problem " ++ toString n) },
        chunk_index := idx, heading := some ("Problem " ++ toString n) } ::
        problem_pieces_to_chunks file_path st page (idx + 1) rest

/-- `chunk_problem_set` from `chunking.py`: split at problem markers,
gather problems, chunk each problem separately (800/100) when any were
found, else fall back to paragraph chunking. -/
def chunk_problem_set (split : Splitter) (text file_path : String)
    (st : SourceType) (page : Option ℤ) : List Chunk :=
  let parts := problemSplitParts text
  let problems := collectProblems 0 none [] parts
  if problems.isEmpty then chunk_by_paragraphs split text file_path st page none
  else
    problem_pieces_to_chunks file_path st page 0
      (problems.flatMap (fun pr => (split 800 100 pr.text).map (fun s => (pr.number, s))))

/-- Python truthiness of an optional list: `None` and `[]` are falsy. -/
def optListTruthy {α : Type} : Option (List α) → Bool
  | none => false
  | some l => !l.isEmpty

/-- `chunk_by_source_type` from `chunking.py`: strategy dispatch on
the source type. -/
def chunk_by_source_type (split : Splitter) (text file_path : String)
    (st : SourceType) (page : Option ℤ) (slides : Option (List String))
    (sections : Option (List (String × String))) : List Chunk :=
  match st with
  | .lecture_slides =>
    if optListTruthy slides then
      chunk_by_slides (slides.getD []) file_path st page
    else chunk_by_paragraphs split text file_path st page none
  | .practice_problems => chunk_problem_set split text file_path st page
  | .exam => chunk_problem_set split text file_path st page
  | .assignment => chunk_problem_set split text file_path st page
  | .course_notes =>
    if optListTruthy sections then
      chunk_by_sections split (sections.getD []) file_path st page
    else chunk_by_paragraphs split text file_path st page none
  | .student_notes => chunk_by_paragraphs split text file_path st page none
  | .syllabus => chunk_by_paragraphs split text file_path st page none
  | .solution => chunk_by_paragraphs split text file_path st page none

/-! Chunk text invariants (for C9). -/
/-- The invariant of every produced chunk text: fixed point of
normalization, NUL-free, at least 10 characters. -/
def chunkTextInvariant (t : String) : Prop :=
  t = normalize_text t ∧ '\x00' ∉ t.data ∧ 10 ≤ t.length

/-! Ingestion orchestrator (`ingest.py`). -/
/-- The content returned by the external `parse_file` (`parsing.py`
boundary): text plus optional slides and sections (per-line page
numbers, used only by the best-effort locator backfill, are omitted;
the backfill never affects control flow). -/
structure ParsedContent where
  text : String
  slides : Option (List String) := none
  sections : Option (List (String × String)) := none
deriving DecidableEq, Repr

/-- The fields of the per-file report dictionary that `ingest_course`
reads. -/
structure IngestReport where
  file_path : String
  source_type : SourceType
  chunk_count : ℕ
deriving DecidableEq, Repr

/-- The exceptions `ingest_file` can raise: a validation error, or the
`ValueError` wrapping an unexpected parsing error. -/
inductive IngestFileError where
  | validationError (e : IngestionValidationError)
  | valueError (msg : String)
deriving DecidableEq, Repr

/-- `ingest_file` from `ingest.py`: validate, parse (external, its
per-file outcome supplied by the `parseO` oracle), chunk by source
type, deduplicate.  An exception from the parser is re-raised as
`ValueError("Error parsing file ...")`.  File output and the
best-effort page backfill (pure I/O / locator enrichment) are not
modelled. -/
def ingest_file (split : Splitter)
    (parseO : String → Except String ParsedContent) (p : String)
    (course_root : Option String) (source_type : Option SourceType) :
    Except IngestFileError IngestReport :=
  match validate_file_for_ingestion p course_root source_type with
  | .error e => .error (.validationError e)
  | .ok st =>
    match parseO p with
    | .error msg => .error (.valueError ("Error parsing file " ++ p ++ ": " ++ msg))
    | .ok parsed =>
      let chunks := deduplicate_chunks
        (chunk_by_source_type split parsed.text p st none parsed.slides parsed.sections)
      .ok { file_path := p, source_type := st, chunk_count := chunks.length }

/-- The summary dictionary returned by `ingest_course`. -/
structure CourseReport where
  course_code : String
  files_processed : ℕ
  files_total : ℕ
  results : List IngestReport
deriving DecidableEq, Repr

/-- The per-file loop of `ingest_course`: `IngestionValidationError`
is caught (the file is skipped and logged); any other exception — in
particular the `ValueError` wrapping a parsing error — propagates. -/
def ingest_course_loop (split : Splitter)
    (parseO : String → Except String ParsedContent) (course_root : String) :
    List String → List IngestReport → Except IngestFileError (List IngestReport)
  | [], acc => .ok acc
  | f :: fs, acc =>
    match ingest_file split parseO f (some course_root) none with
    | .ok r => ingest_course_loop split parseO course_root fs (acc ++ [r])
    | .error (.validationError _) => ingest_course_loop split parseO course_root fs acc
    | .error (.valueError msg) => .error (.valueError msg)

/-- `ingest_course` from `ingest.py`, over the list of files delivered
by `discover_course_files` (directory walking is external I/O; the
discovered list is an input here). -/
def ingest_course (split : Splitter)
    (parseO : String → Except String ParsedContent)
    (course_code data_root : String) (files : List String) :
    Except IngestFileError CourseReport :=
  let course_root := data_root ++ "/" ++ course_code
  match ingest_course_loop split parseO course_root files [] with
  | .ok results =>
    .ok { course_code := course_code, files_processed := results.length,
          files_total := files.length, results := results }
  | .error e => .error e

/-- A parse oracle that fails on the first concrete file and succeeds
on the second. -/
def parseFailsOnA : String → Except String ParsedContent :=
  fun p =>
    if p = "data/raw/CS101/notes/a.md" then .error "boom"
    else .ok { text := "plenty of text for one chunk here" }

/-! Citation validation (`generate.py`, `_validate_citations`). -/
/-- `str.lower()` (ASCII lowering, sufficient for this code base). -/
def toLowerStr (s : String) : String := ⟨s.data.map Char.toLower⟩

/-- Python substring containment `needle in hay` on characters. -/
def isSubstr (needle : List Char) : List Char → Bool
  | [] => needle.isEmpty
  | c :: t => needle.isPrefixOf (c :: t) || isSubstr needle t

/-- Python `a in b` on strings. -/
def pyInStr (a b : String) : Bool := isSubstr a.data b.data

/-- The fuzzy acceptance test of `_validate_citations`:
case-insensitive substring containment in either direction. -/
def citationFuzzyMatch (claimed valid : String) : Bool :=
  pyInStr (toLowerStr claimed) (toLowerStr valid) ||
    pyInStr (toLowerStr valid) (toLowerStr claimed)

/-- First-occurrence deduplication of a string list. -/
def dedupStringsAux (seen : List String) : List String → List String
  | [] => []
  | s :: rest =>
    if s ∈ seen then dedupStringsAux seen rest
    else s :: dedupStringsAux (s :: seen) rest

def dedupStrings (l : List String) : List String := dedupStringsAux [] l

/-- The `valid_citations` set of `_validate_citations`
(`{result.chunk.to_citation() for result in retrieval_results}`),
modelled as the deduplicated citation list in first-occurrence order
(membership is order-independent; the loop's set-iteration order is
fixed by this model). -/
def availableCitations (results : List RetrievalResult) : List String :=
  dedupStrings (results.map (fun r => r.chunk.to_citation))

/-- The per-citation body of the `_validate_citations` loop: exact
match keeps the claimed string; otherwise the first fuzzily matching
valid citation is kept (canonical form); otherwise nothing. -/
def matchCitation (valid : List String) (citation : String) : Option String :=
  if citation ∈ valid then some citation
  else valid.find? (fun v => citationFuzzyMatch citation v)

/-- `_validate_citations` from `generate.py`. -/
def validate_citations (citations : List String)
    (results : List RetrievalResult) : List String :=
  citations.filterMap (matchCitation (availableCitations results))

/-! Answer generation (`generate.py`, `generate_answer`). -/
/-- `InsufficientMaterialError` from `exceptions.py`. -/
structure InsufficientMaterialError where
  query : String
  top_similarity : ℚ
  high_quality_chunks : ℕ
  total_chunks : ℕ
  message : String
deriving DecidableEq, Repr

/-- The exceptions `generate_answer` can raise. -/
inductive GenerateError where
  | valueError (msg : String)
  | insufficientMaterial (e : InsufficientMaterialError)
deriving DecidableEq, Repr

/-- The completion-service response consumed by `generate_answer`
(external service; its output is an input to the model). -/
structure LLMResponse where
  answer : String
  citations : List String
  chunks_used : List String
deriving DecidableEq, Repr

/-- `AnswerWithCitations` from `generate.py`. -/
structure AnswerWithCitations where
  answer : String
  citations : List String
  chunks_used : List String
  retrieval_results : List RetrievalResult
  retrieval_quality : QualityMetrics
deriving DecidableEq, Repr

/-- Two-decimal rendering of a rational, modelling CPython
`f"{x:.2f}"` (round half to even) on the exact values appearing
here. -/
def fmt2Nat (m : ℕ) : String :=
  toString (m / 100) ++ "." ++ (if m % 100 < 10 then "0" else "") ++
    toString (m % 100)

def fmt2 (q : ℚ) : String :=
  let scaled := q * 100
  let fl : ℤ := ⌊scaled⌋
  let frac : ℚ := scaled - (fl : ℚ)
  let n : ℤ :=
    if 1/2 < frac then fl + 1
    else if frac < 1/2 then fl
    else if fl % 2 = 0 then fl else fl + 1
  if n < 0 then "-" ++ fmt2Nat (-n).toNat else fmt2Nat n.toNat

/-- The `ValueError` message raised when retrieval returns nothing. -/
def no_chunks_message (query : String) : String :=
  "No relevant chunks found for query: \x27" ++ query ++
    "\x27. Try a different query or lower the min_similarity threshold."

/-- The refusal message built before raising
`InsufficientMaterialError`. -/
def refusal_message (top_sim confidence_threshold : ℚ)
    (high_quality total : ℕ) (high_quality_threshold : ℤ) : String :=
  "I don\x27t have sufficient information in the course materials to answer this question reliably. " ++
  "The retrieved content has a similarity score of " ++ fmt2 top_sim ++
  " (minimum required: " ++ fmt2 confidence_threshold ++ "), " ++
  "and only " ++ toString high_quality ++ " out of " ++ toString total ++
  " retrieved chunks meet the quality threshold (minimum required: " ++
  toString high_quality_threshold ++ "). " ++
  "To prevent providing inaccurate information, I cannot answer this question based on the available materials. " ++
  "Please try rephrasing your question or asking about a different topic."

/-- `generate_answer` from `generate.py`: retrieval output, the
completion service's availability and response, and the config default
thresholds (`MIN_RETRIEVAL_CONFIDENCE` / `MIN_HIGH_QUALITY_CHUNKS`,
which `config.py` does not actually define) are inputs.  Steps: empty
retrieval raises `ValueError`; the quality gate runs next; under
`strict_quality_check` an insufficient result raises
`InsufficientMaterialError` carrying the metrics and refusal message;
then LLM availability is checked and the answer assembled with
validated citations. -/
def generate_answer (retrieval_results : List RetrievalResult) (query : String)
    (min_confidence : Option ℚ) (min_high_quality_chunks : Option ℤ)
    (strict_quality_check llm_available : Bool) (llm : LLMResponse)
    (config_min_confidence : ℚ) (config_min_high_quality : ℤ) :
    Except GenerateError AnswerWithCitations :=
  if retrieval_results.isEmpty then
    .error (.valueError (no_chunks_message query))
  else
    let confidence_threshold := min_confidence.getD config_min_confidence
    let high_quality_threshold :=
      min_high_quality_chunks.getD config_min_high_quality
    let res := assess_retrieval_quality retrieval_results
      confidence_threshold high_quality_threshold
    if strict_quality_check && !res.1 then
      .error (.insufficientMaterial
        { query := query, top_similarity := res.2.top_similarity,
          high_quality_chunks := res.2.high_quality_chunks,
          total_chunks := res.2.total_chunks,
          message := refusal_message res.2.top_similarity confidence_threshold
            res.2.high_quality_chunks res.2.total_chunks high_quality_threshold })
    else if !llm_available then
      .error (.valueError
        "LLM service is not available. Check OPENAI_API_KEY in your .env file.")
    else
      .ok { answer := llm.answer,
            citations := validate_citations llm.citations retrieval_results,
            chunks_used := llm.chunks_used,
            retrieval_results := retrieval_results,
            retrieval_quality := res.2 }

/-! Vector retrieval (`retrieve.py` / `vector_store.py`). -/
/-- The parameters of `VectorStore.query_similar`, transcribed from
its signature in `vector_store.py` (`self` omitted). -/
def query_similar_params : List String :=
  ["query_text", "limit", "source_types", "min_similarity"]

/-- The keyword arguments of the call
`vector_store.query_similar(...)` inside `retrieve_chunks`,
transcribed from `retrieve.py`. -/
def retrieve_chunks_call_kwargs : List String :=
  ["query_text", "limit", "source_types", "min_similarity", "file_path_filter"]

/-- Python call semantics: a keyword argument not among the callee's
parameters (no `**kwargs` is declared) makes the call raise
`TypeError`. -/
def callHasUnexpectedKwarg : Bool :=
  retrieve_chunks_call_kwargs.any (fun k => !(query_similar_params.contains k))

/-- The guard of `retrieve_chunks`:
`if not query or not query.strip(): return []`. -/
def queryIsBlank (query : String) : Bool :=
  query = "" || pyStrip query = ""

/-- Control flow of `retrieve_chunks` from `retrieve.py`: a blank
query returns `[]` with no external call; every other query reaches
the `query_similar` call, which always passes the `file_path_filter`
keyword that `VectorStore.query_similar` does not accept, so the call
raises `TypeError` before any similarity search happens (the final
branch is unreachable because `callHasUnexpectedKwarg` is true). -/
def retrieve_chunks (query : String) : Except String (List RetrievalResult) :=
  if queryIsBlank query then .ok []
  else if callHasUnexpectedKwarg then
    .error "TypeError: query_similar() got an unexpected keyword argument \x27file_path_filter\x27"
  else .ok []

end Rag

namespace Rag

theorem noAdjWs_tail : ∀ {a : Char} {t : List Char}, noAdjWs (a :: t) → noAdjWs t := by
  intro a t h
  cases t with
  | nil => trivial
  | cons b u => exact h.2

theorem mem_collapseWsAux {c : Char} : ∀ (b : Bool) (l : List Char),
    c ∈ collapseWsAux b l → c = ' ' ∨ c ∈ l := by
  intro b l
  induction l generalizing b with
  | nil => intro h; simp [collapseWsAux] at h
  | cons a t ih =>
    intro h
    by_cases ha : pyIsSpace a
    · simp only [collapseWsAux, ha, if_pos] at h
      cases b with
      | true =>
        rcases ih true h with h1 | h1
        · exact Or.inl h1
        · exact Or.inr (List.mem_cons_of_mem _ h1)
      | false =>
        rcases List.mem_cons.mp h with h1 | h1
        · exact Or.inl h1
        · rcases ih true h1 with h2 | h2
          · exact Or.inl h2
          · exact Or.inr (List.mem_cons_of_mem _ h2)
    · simp only [collapseWsAux, ha] at h
      rcases List.mem_cons.mp h with h1 | h1
      · exact Or.inr (h1 ▸ List.mem_cons_self a t)
      · rcases ih false h1 with h2 | h2
        · exact Or.inl h2
        · exact Or.inr (List.mem_cons_of_mem _ h2)

theorem wsOnlySpace_collapseWsAux : ∀ (b : Bool) (l : List Char),
    wsOnlySpace (collapseWsAux b l) := by
  intro b l
  induction l generalizing b with
  | nil => intro c hc; simp [collapseWsAux] at hc
  | cons a t ih =>
    intro c hc hws
    by_cases ha : pyIsSpace a
    · simp only [collapseWsAux, ha, if_pos] at hc
      cases b with
      | true => exact ih true c hc hws
      | false =>
        rcases List.mem_cons.mp hc with h1 | h1
        · exact h1
        · exact ih true c h1 hws
    · simp only [collapseWsAux, ha] at hc
      rcases List.mem_cons.mp hc with h1 | h1
      · subst h1; simp [ha] at hws
      · exact ih false c h1 hws

theorem head_collapseWsAux_true : ∀ (l : List Char) (c : Char),
    (collapseWsAux true l).head? = some c → pyIsSpace c = false := by
  intro l
  induction l with
  | nil => intro c hc; simp [collapseWsAux] at hc
  | cons a t ih =>
    intro c hc
    by_cases ha : pyIsSpace a
    · simp only [collapseWsAux, ha, if_pos] at hc
      exact ih c hc
    · simp only [collapseWsAux, ha] at hc
      have hac : a = c := by simpa using hc
      subst hac
      simpa using ha

theorem noAdjWs_cons_of_head (a : Char) (l : List Char)
    (hrel : ∀ c, l.head? = some c → ¬(pyIsSpace a ∧ pyIsSpace c))
    (hl : noAdjWs l) : noAdjWs (a :: l) := by
  cases l with
  | nil => trivial
  | cons b u => exact ⟨hrel b rfl, hl⟩

theorem noAdjWs_collapseWsAux : ∀ (b : Bool) (l : List Char),
    noAdjWs (collapseWsAux b l) := by
  intro b l
  induction l generalizing b with
  | nil => exact trivial
  | cons a t ih =>
    by_cases ha : pyIsSpace a
    · simp only [collapseWsAux, ha, if_pos]
      cases b with
      | true => exact ih true
      | false =>
        refine noAdjWs_cons_of_head _ _ ?_ (ih true)
        intro c hc hand
        have := head_collapseWsAux_true t c hc
        rw [this] at hand
        exact Bool.false_ne_true hand.2
    · simp only [collapseWsAux, ha]
      refine noAdjWs_cons_of_head _ _ ?_ (ih false)
      intro c _ hand
      exact ha hand.1

theorem pyRStrip_cons (c : Char) (t : List Char) :
    pyRStrip (c :: t) =
      if (pyRStrip t).isEmpty && pyIsSpace c then [] else c :: pyRStrip t := rfl

theorem mem_pyRStrip {c : Char} : ∀ {l : List Char}, c ∈ pyRStrip l → c ∈ l := by
  intro l
  induction l with
  | nil => intro h; simp [pyRStrip] at h
  | cons a t ih =>
    intro h
    rw [pyRStrip_cons] at h
    by_cases hc : (pyRStrip t).isEmpty && pyIsSpace a
    · simp [hc] at h
    · simp only [hc, Bool.false_eq_true, if_neg, if_false] at h
      rcases List.mem_cons.mp h with h1 | h1
      · exact h1 ▸ List.mem_cons_self a t
      · exact List.mem_cons_of_mem _ (ih h1)

theorem head?_pyRStrip : ∀ {l : List Char}, pyRStrip l ≠ [] →
    (pyRStrip l).head? = l.head? := by
  intro l h
  cases l with
  | nil => simp [pyRStrip] at h
  | cons a t =>
    rw [pyRStrip_cons] at h ⊢
    by_cases hc : (pyRStrip t).isEmpty && pyIsSpace a
    · simp [hc] at h
    · simp [hc]

theorem noAdjWs_pyRStrip : ∀ {l : List Char}, noAdjWs l → noAdjWs (pyRStrip l) := by
  intro l
  induction l with
  | nil => intro _; exact trivial
  | cons a t ih =>
    intro h
    rw [pyRStrip_cons]
    by_cases hc : (pyRStrip t).isEmpty && pyIsSpace a
    · simp only [hc, if_pos]; exact trivial
    · simp only [hc, Bool.false_eq_true, if_false]
      refine noAdjWs_cons_of_head _ _ ?_ (ih (noAdjWs_tail h))
      intro d hd hand
      have hne : pyRStrip t ≠ [] := by
        intro he; rw [he] at hd; simp at hd
      rw [head?_pyRStrip hne] at hd
      cases t with
      | nil => simp at hd
      | cons b u =>
        have hb : b = d := by simpa using hd
        subst hb
        exact h.1 hand

theorem getLast?_cons_ne_nil {a : Char} {t : List Char} (h : t ≠ []) :
    (a :: t).getLast? = t.getLast? := by
  cases t with
  | nil => exact absurd rfl h
  | cons b u => rfl

theorem getLast?_pyRStrip_not_ws : ∀ {l : List Char} {c : Char},
    (pyRStrip l).getLast? = some c → pyIsSpace c = false := by
  intro l
  induction l with
  | nil => intro c h; simp [pyRStrip] at h
  | cons a t ih =>
    intro c h
    rw [pyRStrip_cons] at h
    by_cases hc : (pyRStrip t).isEmpty && pyIsSpace a
    · simp [hc] at h
    · simp only [hc, Bool.false_eq_true, if_false] at h
      by_cases hne : pyRStrip t = []
      · rw [hne] at h
        have hac : a = c := by simpa using h
        subst hac
        have : ¬ pyIsSpace a = true := by
          intro hsp
          exact hc (by simp [hne, hsp])
        simpa using this
      · rw [getLast?_cons_ne_nil hne] at h
        exact ih h

theorem pyRStrip_eq_self : ∀ {l : List Char},
    (∀ c, l.getLast? = some c → pyIsSpace c = false) → pyRStrip l = l := by
  intro l
  induction l with
  | nil => intro _; rfl
  | cons a t ih =>
    intro h
    rw [pyRStrip_cons]
    by_cases hne : t = []
    · subst hne
      have := h a (by simp)
      simp [pyRStrip, this]
    · have ht : pyRStrip t = t := by
        refine ih ?_
        intro c hc
        exact h c (by rw [getLast?_cons_ne_nil hne]; exact hc)
      rw [ht]
      simp [List.isEmpty_iff, hne]

theorem mem_dropWhile {c : Char} {p : Char → Bool} :
    ∀ {l : List Char}, c ∈ l.dropWhile p → c ∈ l := by
  intro l
  induction l with
  | nil => intro h; simp at h
  | cons a t ih =>
    intro h
    rw [List.dropWhile_cons] at h
    by_cases ha : p a
    · simp only [ha, if_pos] at h
      exact List.mem_cons_of_mem _ (ih h)
    · simp only [ha, Bool.false_eq_true, if_false] at h
      exact h

theorem noAdjWs_dropWhile {p : Char → Bool} :
    ∀ {l : List Char}, noAdjWs l → noAdjWs (l.dropWhile p) := by
  intro l
  induction l with
  | nil => intro _; exact trivial
  | cons a t ih =>
    intro h
    rw [List.dropWhile_cons]
    by_cases ha : p a
    · simp only [ha, if_pos]
      exact ih (noAdjWs_tail h)
    · simp only [ha, Bool.false_eq_true, if_false]
      exact h

theorem head?_dropWhile_neg {p : Char → Bool} :
    ∀ {l : List Char} {c : Char}, (l.dropWhile p).head? = some c → p c = false := by
  intro l
  induction l with
  | nil => intro c h; simp at h
  | cons a t ih =>
    intro c h
    rw [List.dropWhile_cons] at h
    by_cases ha : p a
    · simp only [ha, if_pos] at h
      exact ih h
    · simp only [ha, Bool.false_eq_true, if_false] at h
      have hac : a = c := by simpa using h
      subst hac
      simpa using ha

theorem dropWhile_eq_self {p : Char → Bool} {l : List Char}
    (h : ∀ c, l.head? = some c → p c = false) : l.dropWhile p = l := by
  cases l with
  | nil => rfl
  | cons a t =>
    rw [List.dropWhile_cons]
    simp [h a rfl]

/-- The whitespace-collapsing pass is the identity on lists whose
whitespace is already collapsed. -/
theorem collapse_id : ∀ (l : List Char), wsOnlySpace l → noAdjWs l →
    (collapseWsAux false l = l ∧
     ((∀ c, l.head? = some c → pyIsSpace c = false) → collapseWsAux true l = l)) := by
  intro l
  induction l with
  | nil => exact fun _ _ => ⟨rfl, fun _ => rfl⟩
  | cons a t ih =>
    intro hws hadj
    have hwt : wsOnlySpace t := fun c hc => hws c (List.mem_cons_of_mem _ hc)
    have hat : noAdjWs t := noAdjWs_tail hadj
    obtain ⟨ih1, ih2⟩ := ih hwt hat
    by_cases ha : pyIsSpace a
    · have haSp : a = ' ' := hws a (List.mem_cons_self a t) ha
      have hcond : ∀ c, t.head? = some c → pyIsSpace c = false := by
        intro c hc
        cases t with
        | nil => simp at hc
        | cons b u =>
          have hb : b = c := by simpa using hc
          subst hb
          by_contra hb
          exact hadj.1 ⟨ha, by simpa using hb⟩
      constructor
      · show collapseWsAux false (a :: t) = a :: t
        simp only [collapseWsAux, ha, if_pos]
        rw [ih2 hcond, haSp]
        simp
      · intro hcond2
        have := hcond2 a rfl
        rw [ha] at this
        exact absurd this (by simp)
    · constructor
      · show collapseWsAux false (a :: t) = a :: t
        simp only [collapseWsAux, ha, Bool.false_eq_true, if_false]
        rw [ih1]
      · intro _
        show collapseWsAux true (a :: t) = a :: t
        simp only [collapseWsAux, ha, Bool.false_eq_true, if_false]
        rw [ih1]

/-- The characters of a normalized string: whitespace is collapsed. -/
theorem normalize_props (s : String) :
    wsOnlySpace (normalize_text s).data ∧ noAdjWs (normalize_text s).data ∧
    (∀ c, (normalize_text s).data.head? = some c → pyIsSpace c = false) ∧
    (∀ c, (normalize_text s).data.getLast? = some c → pyIsSpace c = false) := by
  have hdata : (normalize_text s).data = pyStripChars (collapseWs (removeNul s.data)) := rfl
  set X := collapseWs (removeNul s.data) with hX
  have hwsX : wsOnlySpace X := wsOnlySpace_collapseWsAux false _
  have hadjX : noAdjWs X := noAdjWs_collapseWsAux false _
  refine ⟨?_, ?_, ?_, ?_⟩
  · intro c hc hws
    rw [hdata] at hc
    exact hwsX c (mem_dropWhile (mem_pyRStrip hc)) hws
  · rw [hdata]
    exact noAdjWs_pyRStrip (noAdjWs_dropWhile hadjX)
  · intro c hc
    rw [hdata] at hc
    have hc2 : (pyRStrip (pyLStrip X)).head? = some c := hc
    have hne : pyRStrip (pyLStrip X) ≠ [] := by
      intro he
      rw [he] at hc2
      simp at hc2
    rw [head?_pyRStrip hne] at hc2
    exact head?_dropWhile_neg hc2
  · intro c hc
    rw [hdata] at hc
    exact getLast?_pyRStrip_not_ws hc

/-- NUL characters never survive normalization. -/
theorem normalize_no_nul (s : String) : '\x00' ∉ (normalize_text s).data := by
  intro hmem
  have hdata : (normalize_text s).data = pyStripChars (collapseWs (removeNul s.data)) := rfl
  rw [hdata] at hmem
  have hX : ('\x00' : Char) ∈ collapseWs (removeNul s.data) :=
    mem_dropWhile (mem_pyRStrip hmem)
  rcases mem_collapseWsAux false _ hX with h | h
  · exact absurd h (by decide)
  · have := List.of_mem_filter h
    simp at this

/-- Normalization is idempotent: normalized text is a fixed point. -/
theorem normalize_text_idem (s : String) :
    normalize_text (normalize_text s) = normalize_text s := by
  obtain ⟨hws, hadj, hhead, hlast⟩ := normalize_props s
  set r := (normalize_text s).data with hr
  have h1 : removeNul r = r := by
    refine List.filter_eq_self.mpr ?_
    intro c hc
    simp only [decide_eq_true_eq]
    intro hcn
    subst hcn
    exact normalize_no_nul s hc
  have h2 : collapseWs r = r := (collapse_id r hws hadj).1
  have h3 : pyLStrip r = r := dropWhile_eq_self hhead
  have h4 : pyRStrip r = r := pyRStrip_eq_self hlast
  show (⟨pyStripChars (collapseWs (removeNul r))⟩ : String) = ⟨r⟩
  rw [h1, h2]
  show (⟨pyRStrip (pyLStrip r)⟩ : String) = ⟨r⟩
  rw [h3, h4]

theorem dedupScan_eq_keepFirst (f : Chunk → String) (hf : f = fun c => dedupNormalize c.text) :
    ∀ (l : List Chunk) (seen : List String),
      dedupScan seen l = keepFirstByKey f (l.filter (fun c => f c ∉ seen)) := by
  intro l
  induction l with
  | nil => intro seen; simp [dedupScan, keepFirstByKey]
  | cons c cs ih =>
    intro seen
    by_cases hc : dedupNormalize c.text ∈ seen
    · have hfc : (f c ∈ seen) := by rw [hf]; exact hc
      simp only [dedupScan, hc, if_pos]
      rw [ih seen]
      congr 1
      simp [hfc]
    · have hfc : ¬(f c ∈ seen) := by rw [hf]; exact hc
      simp only [dedupScan, hc, if_neg, if_false]
      rw [ih (dedupNormalize c.text :: seen)]
      have hfilter :
          cs.filter (fun y => f y ∉ (dedupNormalize c.text :: seen)) =
            (cs.filter (fun y => f y ∉ seen)).filter (fun y => f y ≠ f c) := by
        rw [List.filter_filter]
        apply List.filter_congr
        intro y _
        subst hf
        simp only [List.mem_cons, decide_not]
        by_cases h1 : dedupNormalize y.text = dedupNormalize c.text <;>
          by_cases h2 : dedupNormalize y.text ∈ seen <;> simp [h1, h2]
      rw [show (c :: cs).filter (fun y => f y ∉ seen) =
            c :: cs.filter (fun y => f y ∉ seen) by simp [hfc]]
      rw [keepFirstByKey, hfilter]

theorem map_chunk_index_reindex (l : List Chunk) :
    (reindexChunks l).map (fun c => c.chunk_index) = List.range l.length := by
  unfold reindexChunks
  rw [List.map_map]
  have : ((fun c => c.chunk_index) ∘ fun p : ℕ × Chunk => { p.2 with chunk_index := p.1 }) =
      Prod.fst := by
    funext p
    rfl
  rw [this, List.enum_map_fst]

theorem map_eraseIndex_reindex (l : List Chunk) :
    (reindexChunks l).map eraseIndex = l.map eraseIndex := by
  unfold reindexChunks
  rw [List.map_map]
  have : (eraseIndex ∘ fun p : ℕ × Chunk => { p.2 with chunk_index := p.1 }) =
      eraseIndex ∘ Prod.snd := by
    funext p
    rfl
  rw [this, ← List.map_map, List.enum_map_snd]

theorem length_reindex (l : List Chunk) : (reindexChunks l).length = l.length := by
  simp [reindexChunks]

theorem invariant_of_filter (s : String)
    (h : ¬(normalize_text s = "" ∨ (normalize_text s).length < 10)) :
    chunkTextInvariant (normalize_text s) := by
  push_neg at h
  exact ⟨(normalize_text_idem s).symm, normalize_no_nul s, by omega⟩

theorem mem_langchain_aux (fp : String) (st : SourceType) :
    ∀ (idx : ℕ) (docs : List LCDocument) (c : Chunk),
      c ∈ langchain_docs_to_chunks_aux fp st idx docs →
        chunkTextInvariant c.text := by
  intro idx docs
  induction docs generalizing idx with
  | nil => intro c hc; simp [langchain_docs_to_chunks_aux] at hc
  | cons d ds ih =>
    intro c hc
    by_cases hcond : normalize_text d.page_content = "" ∨
        (normalize_text d.page_content).length < 10
    · simp only [langchain_docs_to_chunks_aux, hcond, if_pos] at hc
      exact ih idx c hc
    · simp only [langchain_docs_to_chunks_aux, hcond, if_false] at hc
      rcases List.mem_cons.mp hc with h1 | h1
      · subst h1
        exact invariant_of_filter _ hcond
      · exact ih (idx + 1) c h1

theorem mem_chunk_by_paragraphs {split : Splitter} {text fp : String}
    {st : SourceType} {page : Option ℤ} {sec : Option String} {c : Chunk}
    (hc : c ∈ chunk_by_paragraphs split text fp st page sec) :
    chunkTextInvariant c.text :=
  mem_langchain_aux fp st 0 _ c hc

theorem mem_chunk_by_slides_aux (fp : String) (st : SourceType) (page : Option ℤ) :
    ∀ (idx cnt : ℕ) (slides : List String) (c : Chunk),
      c ∈ chunk_by_slides_aux fp st page idx cnt slides →
        chunkTextInvariant c.text := by
  intro idx cnt slides
  induction slides generalizing idx cnt with
  | nil => intro c hc; simp [chunk_by_slides_aux] at hc
  | cons s rest ih =>
    intro c hc
    by_cases hcond : normalize_text s = "" ∨ (normalize_text s).length < 10
    · simp only [chunk_by_slides_aux, hcond, if_pos] at hc
      exact ih (idx + 1) cnt c hc
    · simp only [chunk_by_slides_aux, hcond, if_false] at hc
      rcases List.mem_cons.mp hc with h1 | h1
      · subst h1
        exact invariant_of_filter _ hcond
      · exact ih (idx + 1) (cnt + 1) c h1

theorem mem_section_pieces (fp : String) (st : SourceType) (page : Option ℤ) :
    ∀ (idx : ℕ) (pieces : List (String × String)) (c : Chunk),
      c ∈ section_pieces_to_chunks fp st page idx pieces →
        chunkTextInvariant c.text := by
  intro idx pieces
  induction pieces generalizing idx with
  | nil => intro c hc; simp [section_pieces_to_chunks] at hc
  | cons p rest ih =>
    intro c hc
    obtain ⟨name, s⟩ := p
    by_cases hcond : normalize_text s = "" ∨ (normalize_text s).length < 10
    · simp only [section_pieces_to_chunks, hcond, if_pos] at hc
      exact ih idx c hc
    · simp only [section_pieces_to_chunks, hcond, if_false] at hc
      rcases List.mem_cons.mp hc with h1 | h1
      · subst h1
        exact invariant_of_filter _ hcond
      · exact ih (idx + 1) c h1

theorem mem_problem_pieces (fp : String) (st : SourceType) (page : Option ℤ) :
    ∀ (idx : ℕ) (pieces : List (ℕ × String)) (c : Chunk),
      c ∈ problem_pieces_to_chunks fp st page idx pieces →
        chunkTextInvariant c.text := by
  intro idx pieces
  induction pieces generalizing idx with
  | nil => intro c hc; simp [problem_pieces_to_chunks] at hc
  | cons p rest ih =>
    intro c hc
    obtain ⟨n, s⟩ := p
    by_cases hcond : normalize_text s = "" ∨ (normalize_text s).length < 10
    · simp only [problem_pieces_to_chunks, hcond, if_pos] at hc
      exact ih idx c hc
    · simp only [problem_pieces_to_chunks, hcond, if_false] at hc
      rcases List.mem_cons.mp hc with h1 | h1
      · subst h1
        exact invariant_of_filter _ hcond
      · exact ih (idx + 1) c h1

theorem mem_chunk_problem_set {split : Splitter} {text fp : String}
    {st : SourceType} {page : Option ℤ} {c : Chunk}
    (hc : c ∈ chunk_problem_set split text fp st page) :
    chunkTextInvariant c.text := by
  unfold chunk_problem_set at hc
  by_cases hp : (collectProblems 0 none [] (problemSplitParts text)).isEmpty
  · simp only [hp, if_pos] at hc
    exact mem_chunk_by_paragraphs hc
  · simp only [hp, if_false] at hc
    exact mem_problem_pieces fp st page 0 _ c hc

/-- Decomposition of a successful `find?`: the found element is the
first satisfying one. -/
theorem find?_decomp {p : String → Bool} :
    ∀ {l : List String} {v : String}, l.find? p = some v →
      ∃ pre post, l = pre ++ v :: post ∧ p v = true ∧
        ∀ u ∈ pre, p u = false := by
  intro l
  induction l with
  | nil => intro v h; simp at h
  | cons a t ih =>
    intro v h
    rw [List.find?_cons] at h
    by_cases hpa : p a
    · simp only [hpa] at h
      have hav : a = v := by simpa using h
      subst hav
      exact ⟨[], t, rfl, hpa, by simp⟩
    · have hpa2 : p a = false := by simpa using hpa
      simp only [hpa2] at h
      obtain ⟨pre, post, hl, hpv, hpre⟩ := ih h
      refine ⟨a :: pre, post, by simp [hl], hpv, ?_⟩
      intro u hu
      rcases List.mem_cons.mp hu with h1 | h1
      · subst h1; simpa using hpa
      · exact hpre u h1

end Rag

/-- C2: for every file path with an allowed extension and explicit
category, validation succeeds returning the category exactly when
(extension, category) is in the compatibility matrix and fails with a
mismatch error otherwise; and a markdown file under `lectures/`
(inferred category `lecture_slides`) fails validation. -/
theorem C2_validation :
    (∀ (p : String) (cr : Option String) (cat : Rag.SourceType),
      Rag.get_file_extension p ∈ Rag.ALLOWED_FORMATS →
        (Rag.validate_file_for_ingestion p cr (some cat) = .ok cat ↔
          cat ∈ Rag.FORMAT_TO_SOURCE_TYPE (Rag.get_file_extension p))
        ∧ (cat ∉ Rag.FORMAT_TO_SOURCE_TYPE (Rag.get_file_extension p) →
          Rag.validate_file_for_ingestion p cr (some cat) =
            .error (.formatSourceTypeMismatch (Rag.get_file_extension p) cat)))
    ∧ Rag.validate_file_for_ingestion "data/raw/CS101/lectures/notes.md"
        (some "data/raw/CS101") none =
        .error (.formatSourceTypeMismatch ".md" .lecture_slides) := by
  constructor
  · intro p cr cat hmem
    constructor
    · by_cases hm : cat ∈ Rag.FORMAT_TO_SOURCE_TYPE (Rag.get_file_extension p)
      · simp [Rag.validate_file_for_ingestion, Rag.validate_format,
          Rag.validate_format_source_type_mapping, hmem, hm,
          Bind.bind, Except.bind, pure, Except.pure, Functor.map, Except.map]
      · simp [Rag.validate_file_for_ingestion, Rag.validate_format,
          Rag.validate_format_source_type_mapping, hmem, hm,
          Bind.bind, Except.bind, pure, Except.pure, Functor.map, Except.map]
    · intro hm
      simp [Rag.validate_file_for_ingestion, Rag.validate_format,
        Rag.validate_format_source_type_mapping, hmem, hm,
        Bind.bind, Except.bind, pure, Except.pure, Functor.map, Except.map]
  · rfl

/-- Witness for C2: a `.pptx` file with explicit category
`lecture_slides` validates successfully. -/
theorem C2_validation_witness :
    Rag.validate_file_for_ingestion "slides.pptx" none (some .lecture_slides) =
      .ok .lecture_slides :=
  ((C2_validation.1 "slides.pptx" none .lecture_slides (by decide)).1).mpr (by decide)

/-- C6: deduplication keeps exactly the first occurrence of each
distinct normalized text (in original relative order, all non-index
fields preserved), re-assigns indices 0..n-1 to the survivors, and on
a concrete document with two identically-normalizing chunks yields one
survivor with index 0. -/
theorem C6_deduplication :
    (∀ chunks : List Rag.Chunk,
      (Rag.deduplicate_chunks chunks).map (fun c => c.chunk_index) =
        List.range (Rag.deduplicate_chunks chunks).length
      ∧ (Rag.deduplicate_chunks chunks).map Rag.eraseIndex =
        (Rag.keepFirstByKey (fun c => Rag.dedupNormalize c.text) chunks).map
          Rag.eraseIndex)
    ∧ Rag.dedupNormalize Rag.dupChunkA.text = Rag.dedupNormalize Rag.dupChunkB.text
    ∧ Rag.deduplicate_chunks [Rag.dupChunkA, Rag.dupChunkB] =
        [{ Rag.dupChunkA with chunk_index := 0 }] := by
  refine ⟨?_, rfl, rfl⟩
  intro chunks
  have hscan := Rag.dedupScan_eq_keepFirst (fun c => Rag.dedupNormalize c.text) rfl chunks []
  simp only [List.mem_nil_iff, not_false_iff, List.filter_true] at hscan
  have hfilter : chunks.filter (fun _ : Rag.Chunk => decide True) = chunks := by
    simp
  rw [hfilter] at hscan
  constructor
  · unfold Rag.deduplicate_chunks
    rw [Rag.map_chunk_index_reindex, Rag.length_reindex]
  · unfold Rag.deduplicate_chunks
    rw [Rag.map_eraseIndex_reindex, hscan]

/-- C1: the quality gate reports sufficient iff the first result's
similarity is ≥ `minConfidence` and the count of results with
similarity ≥ `minConfidence` is ≥ `minHighQualityChunks`; the empty
list is always insufficient; and with thresholds 0.75 / 2 the score
lists [0.9, 0.8, 0.5], [0.9, 0.5, 0.4], [] are sufficient, insufficient
and insufficient respectively. -/
theorem C1_quality_gate :
    (∀ (results : List Rag.RetrievalResult) (minConf : ℚ) (minHQ : ℤ),
      ((Rag.assess_retrieval_quality results minConf minHQ).1 = true ↔
        (∃ r0, results.head? = some r0 ∧ minConf ≤ r0.similarity_score) ∧
          minHQ ≤ (results.countP
            (fun r => minConf ≤ r.similarity_score) : ℤ)))
    ∧ (∀ (minConf : ℚ) (minHQ : ℤ),
        (Rag.assess_retrieval_quality [] minConf minHQ).1 = false)
    ∧ (Rag.assess_retrieval_quality
        (Rag.exampleResults [0.9, 0.8, 0.5]) 0.75 2).1 = true
    ∧ (Rag.assess_retrieval_quality
        (Rag.exampleResults [0.9, 0.5, 0.4]) 0.75 2).1 = false
    ∧ (Rag.assess_retrieval_quality [] 0.75 2).1 = false := by
  refine ⟨?_, fun _ _ => rfl, ?_, ?_, rfl⟩
  case refine_2 =>
    simp [Rag.assess_retrieval_quality, Rag.exampleResults, List.countP_cons]
    norm_num
  case refine_3 =>
    simp [Rag.assess_retrieval_quality, Rag.exampleResults, List.countP_cons]
    norm_num
  intro results minConf minHQ
  cases results with
  | nil =>
    constructor
    · intro h; simp [Rag.assess_retrieval_quality] at h
    · rintro ⟨⟨r0, hr0, _⟩, _⟩; simp at hr0
  | cons r t =>
    simp only [Rag.assess_retrieval_quality, decide_eq_true_eq]
    constructor
    · rintro ⟨h1, h2⟩
      exact ⟨⟨r, rfl, h1⟩, h2⟩
    · rintro ⟨⟨r0, hr0, h1⟩, h2⟩
      have : r = r0 := by simpa using hr0
      subst this
      exact ⟨h1, h2⟩

/-- C9: every chunk produced by `chunk_by_source_type` (under any
splitter behavior, input text, path, category, and optional slides or
sections) has normalized text: a fixed point of `normalize_text`, free
of NUL characters, and at least 10 characters long. -/
theorem C9_chunk_text_invariant :
    ∀ (split : Rag.Splitter) (text file_path : String) (st : Rag.SourceType)
      (page : Option ℤ) (slides : Option (List String))
      (sections : Option (List (String × String))) (c : Rag.Chunk),
      c ∈ Rag.chunk_by_source_type split text file_path st page slides sections →
        c.text = Rag.normalize_text c.text ∧ '\x00' ∉ c.text.data ∧
          10 ≤ c.text.length := by
  intro split text fp st page slides sections c hc
  suffices h : Rag.chunkTextInvariant c.text by exact h
  cases st with
  | lecture_slides =>
    unfold Rag.chunk_by_source_type at hc
    by_cases hsl : Rag.optListTruthy slides
    · simp only [hsl, if_pos] at hc
      exact Rag.mem_chunk_by_slides_aux fp _ page 0 0 _ c hc
    · simp only [hsl, if_false] at hc
      exact Rag.mem_chunk_by_paragraphs hc
  | practice_problems => exact Rag.mem_chunk_problem_set hc
  | exam => exact Rag.mem_chunk_problem_set hc
  | assignment => exact Rag.mem_chunk_problem_set hc
  | course_notes =>
    unfold Rag.chunk_by_source_type at hc
    by_cases hse : Rag.optListTruthy sections
    · simp only [hse, if_pos] at hc
      exact Rag.mem_section_pieces fp _ page 0 _ c hc
    · simp only [hse, if_false] at hc
      exact Rag.mem_chunk_by_paragraphs hc
  | student_notes => exact Rag.mem_chunk_by_paragraphs hc
  | syllabus => exact Rag.mem_chunk_by_paragraphs hc
  | solution => exact Rag.mem_chunk_by_paragraphs hc

/-- Witness for C9: the invariant instantiated on a concrete exam
document and its first produced chunk. -/
theorem C9_chunk_text_invariant_witness :
    ({ file_path := "data/raw/CS101/exams/e1.pdf", source_type := .exam,
       text := "Alpha beta gamma",
       locator := { sectionName := some "Problem 1" },
       chunk_index := 0, heading := some "Problem 1" } : Rag.Chunk).text =
        Rag.normalize_text "Alpha beta gamma" ∧
      '\x00' ∉ ("Alpha beta gamma" : String).data ∧
      10 ≤ ("Alpha beta gamma" : String).length :=
  C9_chunk_text_invariant Rag.splitWhole
    "Problem 1:\nAlpha beta gamma\nProblem 2:\nDelta epsilon zeta"
    "data/raw/CS101/exams/e1.pdf" .exam none none none _ (by decide)

/-- C5 (counterexample): the problem-set split applied to
`"Problem 1:\nFoo\nProblem 2:\nBar"` yields no chunks at all — the
bodies "Foo" and "Bar" normalize to fewer than 10 characters and are
discarded — so it does not yield at least two chunks. -/
theorem C5_problem_set_counterexample :
    Rag.chunk_problem_set Rag.splitWhole "Problem 1:\nFoo\nProblem 2:\nBar"
      "data/raw/CS101/exams/e1.pdf" .exam none = [] ∧
    ¬(2 ≤ (Rag.chunk_problem_set Rag.splitWhole "Problem 1:\nFoo\nProblem 2:\nBar"
      "data/raw/CS101/exams/e1.pdf" .exam none).length) := by
  refine ⟨by decide, ?_⟩
  intro h
  have : Rag.chunk_problem_set Rag.splitWhole "Problem 1:\nFoo\nProblem 2:\nBar"
      "data/raw/CS101/exams/e1.pdf" .exam none = [] := by decide
  rw [this] at h
  simp at h

/-- C5 (amended): with problem bodies of at least 10 normalized
characters the problem-set split yields exactly one chunk per problem,
with heading and section locator `"Problem 1"` / `"Problem 2"` and each
chunk containing only its own problem's text; the identified problem
texts for the original input are "Foo" and "Bar", whose chunks are
discarded by the 10-character minimum. -/
theorem C5_problem_set_amended :
    Rag.chunk_problem_set Rag.splitWhole
      "Problem 1:\nAlpha beta gamma\nProblem 2:\nDelta epsilon zeta"
      "data/raw/CS101/exams/e1.pdf" .exam none =
    [{ file_path := "data/raw/CS101/exams/e1.pdf", source_type := .exam,
       text := "Alpha beta gamma",
       locator := { sectionName := some "Problem 1" },
       chunk_index := 0, heading := some "Problem 1" },
     { file_path := "data/raw/CS101/exams/e1.pdf", source_type := .exam,
       text := "Delta epsilon zeta",
       locator := { sectionName := some "Problem 2" },
       chunk_index := 1, heading := some "Problem 2" }] ∧
    Rag.collectProblems 0 none []
        (Rag.problemSplitParts "Problem 1:\nFoo\nProblem 2:\nBar") =
      [⟨1, "Foo"⟩, ⟨2, "Bar"⟩] := by
  exact ⟨by decide, by decide⟩

/-- C4 (counterexample): with two validated files where parsing fails
on the first, `ingest_course` aborts the whole course-level operation
with the wrapped `ValueError` — the second file is never processed and
no aggregate report is produced, contradicting the claim that a
per-file parsing error aborts only that file. -/
theorem C4_ingest_course_counterexample :
    Rag.ingest_course Rag.splitWhole Rag.parseFailsOnA "CS101" "data/raw"
      ["data/raw/CS101/notes/a.md", "data/raw/CS101/notes/b.md"] =
      .error (.valueError "Error parsing file data/raw/CS101/notes/a.md: boom") ∧
    (∀ report, Rag.ingest_course Rag.splitWhole Rag.parseFailsOnA "CS101" "data/raw"
      ["data/raw/CS101/notes/a.md", "data/raw/CS101/notes/b.md"] ≠ .ok report) := by
  constructor
  · rfl
  · intro report h
    have he : Rag.ingest_course Rag.splitWhole Rag.parseFailsOnA "CS101" "data/raw"
        ["data/raw/CS101/notes/a.md", "data/raw/CS101/notes/b.md"] =
        .error (.valueError "Error parsing file data/raw/CS101/notes/a.md: boom") := by
      rfl
    rw [he] at h
    exact Except.noConfusion h

/-- C4 (amended): a per-file validation failure aborts only that file
— the remaining files are processed identically and the failed file is
excluded from the aggregate success count (only `files_total` grows) —
whereas an unexpected parsing error on a validated file is wrapped in a
`ValueError` that `ingest_course` does not catch, aborting the whole
course-level operation. -/
theorem C4_ingest_course_amended :
    ∀ (split : Rag.Splitter) (parseO : String → Except String Rag.ParsedContent)
      (course_code data_root f : String) (fs : List String),
      ((∃ e, Rag.validate_file_for_ingestion f
          (some (data_root ++ "/" ++ course_code)) none = .error e) →
        Rag.ingest_course split parseO course_code data_root (f :: fs) =
          (Rag.ingest_course split parseO course_code data_root fs).map
            (fun rep => { rep with files_total := rep.files_total + 1 }))
      ∧ (∀ st msg,
          Rag.validate_file_for_ingestion f
            (some (data_root ++ "/" ++ course_code)) none = .ok st →
          parseO f = .error msg →
          Rag.ingest_course split parseO course_code data_root (f :: fs) =
            .error (.valueError ("Error parsing file " ++ f ++ ": " ++ msg))) := by
  intro split parseO course_code data_root f fs
  constructor
  · rintro ⟨e, he⟩
    unfold Rag.ingest_course
    simp only [Rag.ingest_course_loop, Rag.ingest_file, he]
    cases hloop : Rag.ingest_course_loop split parseO
        (data_root ++ "/" ++ course_code) fs [] with
    | ok results => simp [Except.map]
    | error err => simp [Except.map]
  · intro st msg hv hp
    unfold Rag.ingest_course
    simp only [Rag.ingest_course_loop, Rag.ingest_file, hv, hp]

/-- Witness for C4: both conclusions instantiated on concrete files —
a `.md` under `lectures/` (validation failure, skipped) and a parse
failure (whole-course abort). -/
theorem C4_ingest_course_amended_witness :
    (Rag.ingest_course Rag.splitWhole Rag.parseFailsOnA "CS101" "data/raw"
        ("data/raw/CS101/lectures/x.md" :: ["data/raw/CS101/notes/b.md"]) =
      (Rag.ingest_course Rag.splitWhole Rag.parseFailsOnA "CS101" "data/raw"
          ["data/raw/CS101/notes/b.md"]).map
        (fun rep => { rep with files_total := rep.files_total + 1 })) ∧
    (Rag.ingest_course Rag.splitWhole Rag.parseFailsOnA "CS101" "data/raw"
        ("data/raw/CS101/notes/a.md" :: ["data/raw/CS101/notes/b.md"]) =
      .error (.valueError
        ("Error parsing file " ++ "data/raw/CS101/notes/a.md" ++ ": " ++ "boom"))) :=
  ⟨(C4_ingest_course_amended Rag.splitWhole Rag.parseFailsOnA "CS101" "data/raw"
      "data/raw/CS101/lectures/x.md" ["data/raw/CS101/notes/b.md"]).1
      ⟨Rag.IngestionValidationError.formatSourceTypeMismatch ".md" .lecture_slides, rfl⟩,
   (C4_ingest_course_amended Rag.splitWhole Rag.parseFailsOnA "CS101" "data/raw"
      "data/raw/CS101/notes/a.md" ["data/raw/CS101/notes/b.md"]).2
      Rag.SourceType.student_notes "boom" rfl rfl⟩

/-- C8: a claimed citation is accepted (contributes an entry) iff it
equals an available citation exactly or matches one case-insensitively
as a substring in either direction, and is dropped otherwise; with
available citation "a.pdf, page 3", "A.PDF, PAGE 3" is accepted and
"b.pdf, page 1" is rejected. -/
theorem C8_citation_validation :
    (∀ (valid : List String) (citation : String),
      (Rag.matchCitation valid citation).isSome = true ↔
        (citation ∈ valid ∨
          ∃ v ∈ valid, Rag.citationFuzzyMatch citation v = true))
    ∧ (∀ (citations : List String) (results : List Rag.RetrievalResult)
        (citation : String), citation ∈ citations →
          Rag.matchCitation (Rag.availableCitations results) citation = none →
          citation ∉ Rag.validate_citations citations results ∨
            ∃ other, other ∈ citations ∧ other ≠ citation ∧
              Rag.matchCitation (Rag.availableCitations results) other = some citation)
    ∧ Rag.availableCitations [⟨Rag.exampleChunk, 0.9⟩] = ["a.pdf, page 3"]
    ∧ Rag.validate_citations ["A.PDF, PAGE 3"] [⟨Rag.exampleChunk, 0.9⟩] =
        ["a.pdf, page 3"]
    ∧ Rag.validate_citations ["b.pdf, page 1"] [⟨Rag.exampleChunk, 0.9⟩] = [] := by
  refine ⟨?_, ?_, by decide, by decide, by decide⟩
  · intro valid citation
    unfold Rag.matchCitation
    by_cases hm : citation ∈ valid
    · simp [hm]
    · simp only [hm, if_neg, if_false, Option.isSome_iff_exists]
      constructor
      · rintro ⟨v, hv⟩
        have := List.find?_some hv
        exact Or.inr ⟨v, List.mem_of_find?_eq_some hv, this⟩
      · rintro (h | ⟨v, hv, hfz⟩)
        · exact h.elim
        · rcases List.find?_isSome.mpr ⟨v, hv, hfz⟩ with h
          rcases Option.isSome_iff_exists.mp h with ⟨w, hw⟩
          exact ⟨w, hw⟩
  · intro citations results citation hmem hnone
    by_cases hin : citation ∈ Rag.validate_citations citations results
    · right
      unfold Rag.validate_citations at hin
      rcases List.mem_filterMap.mp hin with ⟨other, hother, hmatch⟩
      refine ⟨other, hother, ?_, hmatch⟩
      intro he
      subst he
      rw [hnone] at hmatch
      exact Option.noConfusion hmatch
    · exact Or.inl hin

/-- Witness for C8: the rejected claimed citation "b.pdf, page 1" is
not in the validated list. -/
theorem C8_citation_validation_witness :
    "b.pdf, page 1" ∉
        Rag.validate_citations ["b.pdf, page 1"] [⟨Rag.exampleChunk, 0.9⟩] ∨
      ∃ other, other ∈ ["b.pdf, page 1"] ∧ other ≠ "b.pdf, page 1" ∧
        Rag.matchCitation (Rag.availableCitations [⟨Rag.exampleChunk, 0.9⟩]) other =
          some "b.pdf, page 1" :=
  C8_citation_validation.2.1 ["b.pdf, page 1"] [⟨Rag.exampleChunk, 0.9⟩]
    "b.pdf, page 1" (List.mem_cons_self _ _) rfl

/-- C10: a fuzzily (non-exactly) matched claimed citation contributes
the canonical stored citation, not the claimed string; each claimed
citation contributes at most one entry, namely the first matching
available citation; only exact matches are returned verbatim.  The
fuzzy example "A.PDF, PAGE 3" yields the canonical "a.pdf, page 3". -/
theorem C10_citation_canonicalization :
    (∀ (valid : List String) (citation v : String),
      Rag.matchCitation valid citation = some v →
        v ∈ valid ∧ (v = citation ↔ citation ∈ valid) ∧
        (citation ∉ valid →
          ∃ pre post, valid = pre ++ v :: post ∧
            Rag.citationFuzzyMatch citation v = true ∧
            ∀ u ∈ pre, Rag.citationFuzzyMatch citation u = false))
    ∧ (∀ (citations : List String) (results : List Rag.RetrievalResult),
        (Rag.validate_citations citations results).length ≤ citations.length)
    ∧ Rag.matchCitation ["a.pdf, page 3"] "A.PDF, PAGE 3" = some "a.pdf, page 3"
    ∧ "A.PDF, PAGE 3" ∉ Rag.availableCitations [⟨Rag.exampleChunk, 0.9⟩] := by
  refine ⟨?_, ?_, by decide, by decide⟩
  · intro valid citation v h
    unfold Rag.matchCitation at h
    by_cases hmem : citation ∈ valid
    · rw [if_pos hmem] at h
      have hv : citation = v := by simpa using h
      subst hv
      exact ⟨hmem, by simp [hmem], fun hc => absurd hmem hc⟩
    · rw [if_neg hmem] at h
      have hvmem : v ∈ valid := List.mem_of_find?_eq_some h
      refine ⟨hvmem, ?_, ?_⟩
      · constructor
        · intro hv; subst hv; exact absurd hvmem hmem
        · intro hc; exact absurd hc hmem
      · intro _
        obtain ⟨pre, post, hl, hpv, hpre⟩ := Rag.find?_decomp h
        exact ⟨pre, post, hl, hpv, hpre⟩
  · intro citations results
    unfold Rag.validate_citations
    exact List.length_filterMap_le _ _

/-- Witness for C10: the conclusions instantiated on the fuzzy match
of "A.PDF, PAGE 3" against available citation "a.pdf, page 3". -/
theorem C10_citation_canonicalization_witness :
    "a.pdf, page 3" ∈ ["a.pdf, page 3"] ∧
      ("a.pdf, page 3" = "A.PDF, PAGE 3" ↔ "A.PDF, PAGE 3" ∈ ["a.pdf, page 3"]) ∧
      ("A.PDF, PAGE 3" ∉ (["a.pdf, page 3"] : List String) →
        ∃ pre post, (["a.pdf, page 3"] : List String) = pre ++ "a.pdf, page 3" :: post ∧
          Rag.citationFuzzyMatch "A.PDF, PAGE 3" "a.pdf, page 3" = true ∧
          ∀ u ∈ pre, Rag.citationFuzzyMatch "A.PDF, PAGE 3" u = false) :=
  C10_citation_canonicalization.1 ["a.pdf, page 3"] "A.PDF, PAGE 3" "a.pdf, page 3"
    (by decide)

/-- C7: zero retrieved chunks fail with the generic retrieval
`ValueError` for every threshold and strictness setting (so before the
quality gate can matter); otherwise, under `strict_quality_check`, an
insufficient quality verdict fails with `InsufficientMaterialError`
carrying the query, top similarity, high-quality-chunk count, total
count and the human-readable refusal message. -/
theorem C7_generate_answer :
    ∀ (results : List Rag.RetrievalResult) (query : String) (mc : Option ℚ)
      (mh : Option ℤ) (strict llmAvail : Bool) (llm : Rag.LLMResponse)
      (cc : ℚ) (ch : ℤ),
      (results = [] →
        Rag.generate_answer results query mc mh strict llmAvail llm cc ch =
          .error (.valueError (Rag.no_chunks_message query)))
      ∧ (results ≠ [] → strict = true →
          (Rag.assess_retrieval_quality results (mc.getD cc) (mh.getD ch)).1 = false →
          Rag.generate_answer results query mc mh strict llmAvail llm cc ch =
            .error (.insufficientMaterial
              { query := query,
                top_similarity := (Rag.assess_retrieval_quality results
                  (mc.getD cc) (mh.getD ch)).2.top_similarity,
                high_quality_chunks := (Rag.assess_retrieval_quality results
                  (mc.getD cc) (mh.getD ch)).2.high_quality_chunks,
                total_chunks := (Rag.assess_retrieval_quality results
                  (mc.getD cc) (mh.getD ch)).2.total_chunks,
                message := Rag.refusal_message
                  (Rag.assess_retrieval_quality results
                    (mc.getD cc) (mh.getD ch)).2.top_similarity
                  (mc.getD cc)
                  (Rag.assess_retrieval_quality results
                    (mc.getD cc) (mh.getD ch)).2.high_quality_chunks
                  (Rag.assess_retrieval_quality results
                    (mc.getD cc) (mh.getD ch)).2.total_chunks
                  (mh.getD ch) })) := by
  intro results query mc mh strict llmAvail llm cc ch
  constructor
  · intro he
    subst he
    rfl
  · intro hne hstrict hins
    have hemp : results.isEmpty = false := by
      cases results with
      | nil => exact absurd rfl hne
      | cons r t => rfl
    subst hstrict
    unfold Rag.generate_answer
    rw [hemp]
    simp only [Bool.false_eq_true, if_false, hins, Bool.not_false, Bool.and_true,
      if_true]

/-- Witness for C7: empty retrieval on a concrete query fails with the
generic retrieval `ValueError`. -/
theorem C7_generate_answer_witness :
    Rag.generate_answer [] "what is a heap" none none true true
        ⟨"", [], []⟩ 0.75 2 =
      .error (.valueError (Rag.no_chunks_message "what is a heap")) :=
  (C7_generate_answer [] "what is a heap" none none true true
    ⟨"", [], []⟩ 0.75 2).1 rfl

/-- C3 (code bug): `retrieve_chunks` passes the keyword argument
`file_path_filter` to `VectorStore.query_similar`, whose signature has
no such parameter, so every non-blank query raises `TypeError` instead
of running the described retrieval algorithm; only the blank-query
early return holds. -/
theorem C3_retrieve_kwarg_bug :
    ("file_path_filter" ∈ Rag.retrieve_chunks_call_kwargs ∧
      "file_path_filter" ∉ Rag.query_similar_params) ∧
    Rag.callHasUnexpectedKwarg = true ∧
    (∀ query, Rag.queryIsBlank query = true → Rag.retrieve_chunks query = .ok []) ∧
    Rag.retrieve_chunks "what is a binary heap" =
      .error "TypeError: query_similar() got an unexpected keyword argument \x27file_path_filter\x27" := by
  refine ⟨by decide, by decide, ?_, by rfl⟩
  intro query hq
  unfold Rag.retrieve_chunks
  rw [hq]
  rfl

/-- Witness for C3: a whitespace-only query returns the empty list
without reaching the storage call. -/
theorem C3_retrieve_kwarg_bug_witness :
    Rag.retrieve_chunks "   " = .ok [] :=
  C3_retrieve_kwarg_bug.2.2.1 "   " (by decide)
